import Mathlib

/-!
Verification development for the itinerary-optimizer core of the
Tourist-guide repository (src/app/planner/planner.py).

The Python data model and operations are shallowly embedded:
- Python floats that only ever hold exact monetary / rating / weight values
  are modelled as rationals; latitude/longitude and every quantity produced
  by trigonometric functions are modelled as real numbers.
- Python datetimes are modelled as an absolute count of minutes; the Python
  fields dt.hour and the one-day timedelta steps are derived from it.
- Python code that can raise (the float division in the evaluator) is
  modelled with Option: none is a raised ZeroDivisionError.
- Stochastic choices (random.choice, random.choices, random.randint,
  random.uniform, random.sample, random.shuffle) are modelled by explicit
  oracle parameters ranging over all possible draws, so a property proved
  for every oracle holds for every run of the original program.
-/

namespace Planner

/-- Enumeration WeatherCondition from planner.py. -/
inductive WeatherCondition
| sunny
| cloudy
| rainy
| stormy
deriving DecidableEq

/-- Enumeration ActivityType from planner.py. -/
inductive ActivityType
| tour
| cultural
| museum
| excursion
| restaurant
| transport
| nature
| entertainment
| shopping
| accommodation
deriving DecidableEq

/-- Geographic location (dataclass Location). -/
structure Location where
  locName : String
  latitude : ℝ
  longitude : ℝ

/-- The conversion math.radians. -/
noncomputable def radians (x : ℝ) : ℝ := x * Real.pi / 180

/-- The two-argument arctangent math.atan2, with the C-library convention
atan2 0 0 = 0. -/
noncomputable def atan2 (y x : ℝ) : ℝ :=
  if 0 < x then Real.arctan (y / x)
  else if x < 0 then
    (if 0 ≤ y then Real.arctan (y / x) + Real.pi else Real.arctan (y / x) - Real.pi)
  else
    (if 0 < y then Real.pi / 2 else if y < 0 then -(Real.pi / 2) else 0)

/-- The haversine expression named a in Location.distance_to:
sin(dlat/2)^2 + cos lat1 * cos lat2 * sin(dlon/2)^2 after converting the
coordinates to radians. -/
noncomputable def hav (p q : Location) : ℝ :=
  Real.sin ((radians q.latitude - radians p.latitude) / 2) ^ 2 +
    Real.cos (radians p.latitude) * Real.cos (radians q.latitude) *
      Real.sin ((radians q.longitude - radians p.longitude) / 2) ^ 2

/-- Location.distance_to: great-circle distance in km by the Haversine
formula with Earth radius R = 6371, via R * 2 * atan2 (sqrt a) (sqrt (1-a)). -/
noncomputable def Location.distance_to (self other : Location) : ℝ :=
  6371 * 2 * atan2 (Real.sqrt (hav self other)) (Real.sqrt (1 - hav self other))

lemma hav_comm (p q : Location) : hav p q = hav q p := by
  unfold hav
  have hsin : ∀ u v : ℝ, Real.sin ((u - v) / 2) ^ 2 = Real.sin ((v - u) / 2) ^ 2 := by
    intro u v
    rw [show (u - v) / 2 = -((v - u) / 2) by ring, Real.sin_neg, neg_sq]
  rw [hsin, hsin (radians q.longitude) (radians p.longitude), mul_comm (Real.cos (radians p.latitude))]

lemma hav_self_eq_zero (p q : Location)
    (hlat : p.latitude = q.latitude) (hlon : p.longitude = q.longitude) :
    hav p q = 0 := by
  unfold hav
  rw [hlat, hlon]
  simp

/-- A Python datetime, modelled as an absolute number of minutes. -/
structure DateTime where
  mins : ℤ
deriving DecidableEq

/-- The datetime field dt.hour: the hour-of-day component, in 0..23. -/
def DateTime.hour (dt : DateTime) : ℤ := dt.mins % 1440 / 60

/-- The call date.replace(hour = h): keep the day and the minute-of-hour,
set the hour-of-day to h. -/
def DateTime.replaceHour (dt : DateTime) (h : ℤ) : DateTime :=
  ⟨dt.mins - dt.mins % 1440 + h * 60 + dt.mins % 60⟩

/-- Advancing a datetime by a timedelta of m minutes. -/
def DateTime.addMinutes (dt : DateTime) (m : ℤ) : DateTime := ⟨dt.mins + m⟩

/-- Dataclass TourismActivity.  cost and rating only ever hold catalog
money/rating values, so they are modelled as rationals; location is
optional because the evaluator explicitly handles activities without one. -/
structure TourismActivity where
  id : String
  actName : String
  activity_type : ActivityType
  location : Option Location
  duration_minutes : ℤ
  cost : ℚ
  rating : ℚ
  description : String
  start_hour : ℤ
  end_hour : ℤ
  indoor : Bool
  interest_categories : List String

/-- TourismActivity.is_available_at: start_hour <= dt.hour < end_hour. -/
def TourismActivity.is_available_at (a : TourismActivity) (dt : DateTime) : Prop :=
  a.start_hour ≤ dt.hour ∧ dt.hour < a.end_hour

instance (a : TourismActivity) (dt : DateTime) : Decidable (a.is_available_at dt) :=
  inferInstanceAs (Decidable (_ ∧ _))

/-- TourismActivity.get_weather_penalty: 0.1 for indoor activities, 0.8 for
outdoor ones under rain or storm, 0.1 otherwise. -/
def TourismActivity.get_weather_penalty (a : TourismActivity) (w : WeatherCondition) : ℚ :=
  if a.indoor then 1/10
  else if w = WeatherCondition.rainy ∨ w = WeatherCondition.stormy then 8/10 else 1/10

/-- The five-entry weights dictionary of UserPreferences. -/
structure Weights where
  wcost : ℚ
  wtime : ℚ
  wrating : ℚ
  wweather : ℚ
  winterest : ℚ

/-- Dataclass UserPreferences. -/
structure UserPreferences where
  start_date : DateTime
  end_date : DateTime
  max_budget : ℚ
  daily_start_hour : ℤ
  daily_end_hour : ℤ
  max_daily_duration : ℤ
  max_walking_distance : ℚ
  interest_categories : List String
  weights : Weights

/-- Dataclass ItineraryItem. -/
structure ItineraryItem where
  activity : TourismActivity
  start_time : DateTime
  transport_time : ℤ
  transport_cost : ℚ

/-- Dataclass DayPlan. -/
structure DayPlan where
  date : DateTime
  items : List ItineraryItem
  weather : WeatherCondition

/-- DayPlan.get_duration: activity minutes plus transport minutes. -/
def DayPlan.get_duration (d : DayPlan) : ℤ :=
  (d.items.map (fun it => it.activity.duration_minutes + it.transport_time)).sum

/-- DayPlan.get_cost: activity costs plus transport costs. -/
def DayPlan.get_cost (d : DayPlan) : ℚ :=
  (d.items.map (fun it => it.activity.cost + it.transport_cost)).sum

/-- Sum of the distances between consecutive locations of a list, as in the
loop of DayPlan.get_walking_distance. -/
noncomputable def consecDistanceSum : List Location → ℝ
| a :: b :: rest => a.distance_to b + consecDistanceSum (b :: rest)
| _ => 0

/-- DayPlan.get_walking_distance: 0 with at most one item, else the sum of
consecutive Haversine distances between the items that have a location, in
schedule order. -/
noncomputable def DayPlan.get_walking_distance (d : DayPlan) : ℝ :=
  if d.items.length ≤ 1 then 0
  else
    let locs := d.items.filterMap (fun it => it.activity.location)
    if locs.length ≤ 1 then 0 else consecDistanceSum locs

/-- Class Itinerary: a list of day plans plus the cached fitness score.
The constructor Itinerary(days) initializes fitness_score to 0.0. -/
structure Itinerary where
  days : List DayPlan
  fitness_score : ℝ

/-- Itinerary.get_total_cost. -/
def Itinerary.get_total_cost (it : Itinerary) : ℚ :=
  (it.days.map DayPlan.get_cost).sum

/-- All scheduled items of an itinerary, in schedule order. -/
def Itinerary.allItems (it : Itinerary) : List ItineraryItem :=
  it.days.flatMap DayPlan.items

/-- Itinerary.get_average_rating: mean rating over all items, 0 when empty. -/
def Itinerary.get_average_rating (it : Itinerary) : ℚ :=
  let items := it.allItems
  if items.isEmpty then 0 else (items.map (fun i => i.activity.rating)).sum / items.length

/-- Itinerary.clone: per-item structural copy of all days; the produced
Itinerary goes through the constructor, so its fitness_score is 0.0. -/
def Itinerary.clone (it : Itinerary) : Itinerary := ⟨it.days, 0⟩

/-- The activity ids carried by the items of one day plan. -/
def DayPlan.itemIds (d : DayPlan) : List String :=
  d.items.map (fun i => i.activity.id)

/-- The activity ids of all items of an itinerary, all days combined. -/
def Itinerary.allIds (it : Itinerary) : List String :=
  it.days.flatMap DayPlan.itemIds

/-- Python float division: raises ZeroDivisionError (none) when the divisor
is zero, otherwise the exact quotient. -/
def pyDiv (x y : ℚ) : Option ℚ := if y = 0 then none else some (x / y)

/-- ItineraryEvaluator._calculate_time_efficiency: activity minutes over
total minutes, 0 when the total is 0. -/
def timeEfficiency (it : Itinerary) : ℚ :=
  let act : ℤ := (it.days.map (fun d => (d.items.map (fun i => i.activity.duration_minutes)).sum)).sum
  let tr : ℤ := (it.days.map (fun d => (d.items.map (fun i => i.transport_time)).sum)).sum
  if 0 < act + tr then (act : ℚ) / ((act : ℚ) + (tr : ℚ)) else 0

/-- ItineraryEvaluator._calculate_weather_score: 1 - mean of the per-item
weather penalties, 1 when there are no items. -/
def weatherScore (it : Itinerary) : ℚ :=
  let ps := it.days.flatMap (fun d => d.items.map (fun i => i.activity.get_weather_penalty d.weather))
  if ps.isEmpty then 1 else 1 - ps.sum / ps.length

/-- ItineraryEvaluator._calculate_interest_score.  The result none models
the NaN produced by np.mean on an empty list (user interests nonempty but
no scheduled items); Python then propagates that NaN into the final score,
where max(0, NaN) evaluates to 0. -/
def interestScore (prefs : UserPreferences) (it : Itinerary) : Option ℚ :=
  if prefs.interest_categories.isEmpty then some 1
  else
    let ui := prefs.interest_categories.toFinset
    let ratios := it.allItems.map
      (fun i => ((ui ∩ i.activity.interest_categories.toFinset).card : ℚ) / ui.card)
    if ratios.isEmpty then none else some (ratios.sum / ratios.length)

open Classical in
/-- ItineraryEvaluator._calculate_violations: the per-day loop adds 0.5 on
an over-long day, 0.3 on an over-walked day and 0.2 per item scheduled
outside its activity service hours, then 1.0 once on budget overrun when a
budget limit is set. -/
noncomputable def calculate_violations (prefs : UserPreferences) (it : Itinerary) : ℝ :=
  (it.days.map (fun d =>
      (if prefs.max_daily_duration < d.get_duration then (1/2 : ℝ) else 0)
    + (if (prefs.max_walking_distance : ℝ) < d.get_walking_distance then (3/10 : ℝ) else 0)
    + ((d.items.map (fun i =>
          if i.activity.is_available_at i.start_time then (0 : ℝ) else (1/5 : ℝ))).sum))).sum
  + (if 0 < prefs.max_budget ∧ prefs.max_budget < it.get_total_cost then (1 : ℝ) else 0)

open Classical in
/-- ItineraryEvaluator.evaluate.  An empty itinerary scores 0.  Otherwise
the code computes cost_score = max(0, 1 - total_cost / max_budget) with an
UNGUARDED division: when max_budget = 0 Python raises ZeroDivisionError,
modelled here as none.  A NaN interest score (see interestScore) makes the
final max(0, ...) return 0. -/
noncomputable def evaluate (prefs : UserPreferences) (it : Itinerary) : Option ℝ :=
  match it.days with
  | [] => some 0
  | _ :: _ =>
    match pyDiv it.get_total_cost prefs.max_budget with
    | none => none
    | some q =>
      let cost_score : ℚ := max 0 (1 - q)
      let rating_score : ℚ := it.get_average_rating / 5
      let time_score : ℚ := timeEfficiency it
      let weather_score : ℚ := weatherScore it
      match interestScore prefs it with
      | none => some 0
      | some interest_sc =>
        let weighted : ℚ :=
          prefs.weights.wcost * cost_score + prefs.weights.wrating * rating_score +
          prefs.weights.wtime * time_score + prefs.weights.wweather * weather_score +
          prefs.weights.winterest * interest_sc
        some (max 0 ((weighted : ℝ) - calculate_violations prefs it))

/-- Placeholder activity used as the List.getD default behind indices that
are always in range at call sites (Python indexing never sees it). -/
def defaultActivity : TourismActivity :=
  ⟨"", "", ActivityType.tour, none, 0, 0, 0, "", 9, 17, true, []⟩

/-- Placeholder item, same role as defaultActivity. -/
def defaultItem : ItineraryItem := ⟨defaultActivity, ⟨0⟩, 15, 5⟩

/-- Placeholder day plan, same role as defaultActivity. -/
def defaultDay : DayPlan := ⟨⟨0⟩, [], WeatherCondition.sunny⟩

/-- Placeholder itinerary, same role as defaultActivity. -/
def emptyItinerary : Itinerary := ⟨[], 0⟩

/-- GeneticAlgorithmPlanner.get_available_activities: all catalog
activities not yet used when the budget ceiling is nonpositive (unlimited),
otherwise those within budget and not yet used. -/
def get_available_activities (acts : List TourismActivity) (used : Finset String)
    (budget : ℚ) : List TourismActivity :=
  if budget ≤ 0 then acts.filter (fun a => decide (a.id ∉ used))
  else acts.filter (fun a => decide (a.cost ≤ budget ∧ a.id ∉ used))

/-- One day's worth of random draws: the weighted activity pick of
random.choices (as an arbitrary index), random.randint transport times,
random.uniform transport costs, and the day's random.choice weather. -/
structure DayOracles where
  pick : ℕ → ℕ
  ttime : ℕ → ℤ
  tcost : ℕ → ℚ
  weather : WeatherCondition

/-- The greedy-random selection loop of
GeneticAlgorithmPlanner._generate_random_day: while the daily window is
open and activities remain, pick one, remove it from the local pool, mark
it used, and append it (advancing clock and cost) when it fits the budget
or the budget is unlimited. -/
def genDayLoop (prefs : UserPreferences) (budget : ℚ) (o : DayOracles)
    (step : ℕ) (available : List TourismActivity) (time : DateTime)
    (cost : ℚ) (used : Finset String) : List ItineraryItem × Finset String :=
  if h : time.hour < prefs.daily_end_hour - 1 ∧ 0 < available.length then
    let idx := o.pick step % available.length
    let a := available.getD idx defaultActivity
    let available' := available.eraseIdx idx
    let used' := insert a.id used
    if budget ≤ 0 ∨ cost + a.cost ≤ budget then
      let item : ItineraryItem := ⟨a, time, o.ttime step, o.tcost step⟩
      let res := genDayLoop prefs budget o (step + 1) available'
        (time.addMinutes (a.duration_minutes + o.ttime step))
        (cost + a.cost + o.tcost step) used'
      (item :: res.1, res.2)
    else
      genDayLoop prefs budget o (step + 1) available' time cost used'
  else ([], used)
termination_by available.length
decreasing_by
  all_goals
    have hidx : o.pick step % available.length < available.length := Nat.mod_lt _ h.2
    simp only [List.length_eraseIdx, hidx, if_true]
    omega

/-- GeneticAlgorithmPlanner._generate_random_day: empty day when no
activity is available, otherwise run the selection loop starting at the
preference daily start hour. -/
def generate_random_day (acts : List TourismActivity) (prefs : UserPreferences)
    (o : DayOracles) (date : DateTime) (budget : ℚ) (used : Finset String) :
    DayPlan × Finset String :=
  let available := get_available_activities acts used budget
  if available.isEmpty then (⟨date, [], o.weather⟩, used)
  else
    let res := genDayLoop prefs budget o 0 available
      (date.replaceHour prefs.daily_start_hour) 0 used
    (⟨date, res.1, o.weather⟩, res.2)

/-- The date sequence walked by the while-loop of
_generate_random_itinerary: start, start + 1 day, ... while <= end. -/
def genDates (startM endM : ℤ) : List ℤ :=
  if startM ≤ endM then startM :: genDates (startM + 1440) endM else []
termination_by (endM + 1440 - startM).toNat
decreasing_by omega

/-- Day-by-day assembly of _generate_random_itinerary, threading the shared
used-activity set through the successive days. -/
def genItinAux (acts : List TourismActivity) (prefs : UserPreferences)
    (os : ℤ → DayOracles) (db : ℚ) :
    List ℤ → Finset String → List DayPlan × Finset String
| [], used => ([], used)
| m :: rest, used =>
  let res := generate_random_day acts prefs (os m) ⟨m⟩ db used
  let res2 := genItinAux acts prefs os db rest res.2
  (res.1 :: res2.1, res2.2)

/-- GeneticAlgorithmPlanner._generate_random_itinerary: one random day per
calendar date from start_date to end_date inclusive, under the per-day
budget slice max_budget / max(1, (end - start).days + 1). -/
def generate_random_itinerary (acts : List TourismActivity) (prefs : UserPreferences)
    (os : ℤ → DayOracles) (used : Finset String) : Itinerary × Finset String :=
  let db := prefs.max_budget /
    ((max 1 ((prefs.end_date.mins - prefs.start_date.mins) / 1440 + 1) : ℤ) : ℚ)
  let res := genItinAux acts prefs os db
    (genDates prefs.start_date.mins prefs.end_date.mins) used
  (⟨res.1, 0⟩, res.2)

/-- Maximum of a list of scores (value of np.max / the max scanned by
np.argmax); 0 on the empty list, which np.argmax rejects anyway. -/
noncomputable def maxList : List ℝ → ℝ
| [] => 0
| [x] => x
| x :: y :: t => max x (maxList (y :: t))

open Classical in
/-- np.argmax: index of the first occurrence of the maximum score. -/
noncomputable def argmaxIdx : List ℝ → ℕ
| [] => 0
| [_] => 0
| x :: y :: t => if x < maxList (y :: t) then argmaxIdx (y :: t) + 1 else 0

open Classical in
/-- GeneticAlgorithmPlanner._update_best_solution: when the generation's
maximum score strictly exceeds the best-ever score, record it and retain a
clone of the corresponding individual. -/
noncomputable def update_best (best_score : ℝ) (best_sol : Option Itinerary)
    (pop : List Itinerary) (scores : List ℝ) : ℝ × Option Itinerary :=
  let i := argmaxIdx scores
  let m := scores.getD i 0
  if best_score < m then (m, some ((pop.getD i emptyItinerary).clone))
  else (best_score, best_sol)

/-- The per-day filtering loop of GeneticAlgorithmPlanner._crossover: keep
only items whose activity id has not yet been recorded in the child's fresh
used-activity set, recording kept ids. -/
def crossFilterItems : List ItineraryItem → Finset String →
    List ItineraryItem × Finset String
| [], used => ([], used)
| i :: rest, used =>
  if i.activity.id ∈ used then crossFilterItems rest used
  else
    let res := crossFilterItems rest (insert i.activity.id used)
    (i :: res.1, res.2)

/-- The day-index loop of _crossover: per index pick a whole parent day
(pick n chooses parent 1) and keep its not-yet-used items. -/
def crossoverAux (pick : ℕ → Bool) :
    ℕ → List DayPlan → List DayPlan → Finset String → List DayPlan
| _, [], _, _ => []
| _, _ :: _, [], _ => []
| n, d1 :: t1, d2 :: t2, used =>
  let sel := if pick n then d1 else d2
  let res := crossFilterItems sel.items used
  ⟨sel.date, res.1, sel.weather⟩ :: crossoverAux pick (n + 1) t1 t2 res.2

/-- GeneticAlgorithmPlanner._crossover: with equal parent day counts, build
the child day-wise from a fresh empty used-activity set; with mismatched
counts, fall back to cloning a randomly chosen parent (fb). -/
def crossover (p1 p2 : Itinerary) (pick : ℕ → Bool) (fb : Bool) : Itinerary :=
  if p1.days.length = p2.days.length then ⟨crossoverAux pick 0 p1.days p2.days ∅, 0⟩
  else (if fb then p1 else p2).clone

/-- GeneticAlgorithmPlanner._mutate_swap: for two distinct day positions
with items (random.sample guarantees distinctness), remove one chosen item
from each day and append it to the other day.  Out-of-range or equal
indices model the guard len(days) < 2 and leave the itinerary unchanged. -/
def mutate_swap (it : Itinerary) (i j k1 k2 : ℕ) : Itinerary :=
  if i < it.days.length ∧ j < it.days.length ∧ i ≠ j then
    let d1 := it.days.getD i defaultDay
    let d2 := it.days.getD j defaultDay
    if d1.items.isEmpty ∨ d2.items.isEmpty then it
    else
      let a1 := d1.items.getD (k1 % d1.items.length) defaultItem
      let a2 := d2.items.getD (k2 % d2.items.length) defaultItem
      let d1' : DayPlan := ⟨d1.date, d1.items.eraseIdx (k1 % d1.items.length) ++ [a2], d1.weather⟩
      let d2' : DayPlan := ⟨d2.date, d2.items.eraseIdx (k2 % d2.items.length) ++ [a1], d2.weather⟩
      ⟨(it.days.set i d1').set j d2', it.fitness_score⟩
  else it

/-- GeneticAlgorithmPlanner._mutate_replace: release the chosen item's
activity from the used set, query activities within 1.2 times its cost; if
any exist replace the item (keeping its timing fields) with a randomly
chosen one and mark it used, else restore the released id. -/
def mutate_replace (acts : List TourismActivity) (it : Itinerary) (used : Finset String)
    (di ii pk : ℕ) : Itinerary × Finset String :=
  if it.days.isEmpty then (it, used)
  else
    let dIdx := di % it.days.length
    let day := it.days.getD dIdx defaultDay
    if day.items.isEmpty then (it, used)
    else
      let iIdx := ii % day.items.length
      let old := day.items.getD iIdx defaultItem
      let used1 := used.erase old.activity.id
      let available := get_available_activities acts used1 (old.activity.cost * (12/10))
      if available.isEmpty then (it, insert old.activity.id used1)
      else
        let newAct := available.getD (pk % available.length) defaultActivity
        let newItem : ItineraryItem := ⟨newAct, old.start_time, old.transport_time, old.transport_cost⟩
        let day' : DayPlan := ⟨day.date, day.items.eraseIdx iIdx ++ [newItem], day.weather⟩
        (⟨it.days.set dIdx day', it.fitness_score⟩, insert newAct.id used1)

/-- GeneticAlgorithmPlanner._mutate_shuffle: randomly reorder the items of
one day with more than one item.  newItems stands for the reordering drawn
by random.shuffle; the theorems about this operator quantify over every
permutation of the day's items. -/
def mutate_shuffle (it : Itinerary) (i : ℕ) (newItems : List ItineraryItem) : Itinerary :=
  if i < it.days.length then
    let d := it.days.getD i defaultDay
    if 1 < d.items.length then
      ⟨it.days.set i ⟨d.date, newItems, d.weather⟩, it.fitness_score⟩
    else it
  else it

/-- np.std of a score list: population standard deviation. -/
noncomputable def popStd (l : List ℝ) : ℝ :=
  Real.sqrt ((l.map (fun x => (x - l.sum / l.length) ^ 2)).sum / l.length)

/-- The early-convergence condition tested at the end of each generation of
GeneticAlgorithmPlanner.optimize: generation > 100 and np.std < 0.01. -/
def convergedAt (scores : ℕ → List ℝ) (g : ℕ) : Prop :=
  100 < g ∧ popStd (scores g) < 1/100

open Classical in
/-- The generation loop of GeneticAlgorithmPlanner.optimize, abstracted
over the per-generation fitness-score lists (scores g is the evaluation of
generation g's population, whatever breeding produced): counts how many
iterations of the range(max_iterations) loop execute, breaking after the
first converged generation. -/
noncomputable def gensRun (scores : ℕ → List ℝ) : ℕ → ℕ → ℕ
| _, 0 => 0
| g, fuel + 1 => if convergedAt scores g then 1 else 1 + gensRun scores (g + 1) fuel

open Classical in
/-- Index (relative to g) of the first converged generation at or after g,
or top when none exists. -/
noncomputable def firstConvFrom (scores : ℕ → List ℝ) (g : ℕ) : ℕ∞ :=
  if h : ∃ k, convergedAt scores (g + k) then ((Nat.find h : ℕ) : ℕ∞) else ⊤

/-! Helper lemmas. -/

lemma evaluate_eq_none_of_budget_zero (prefs : UserPreferences) (it : Itinerary)
    (hb : prefs.max_budget = 0) (hd : it.days ≠ []) : evaluate prefs it = none := by
  unfold evaluate
  cases hdays : it.days with
  | nil => exact absurd hdays hd
  | cons d t => simp [pyDiv, hb]

/-! Theorems for the claims. -/

/-- Claim C8: Location.distance_to is symmetric, and it is zero whenever
the two points have identical latitude and longitude; it is computed by the
Haversine great-circle formula with Earth radius 6371 km. -/
theorem distance_to_symm_and_diag_zero (a b : Location) :
    a.distance_to b = b.distance_to a ∧
    (a.latitude = b.latitude → a.longitude = b.longitude → a.distance_to b = 0) := by
  constructor
  · unfold Location.distance_to
    rw [hav_comm]
  · intro hlat hlon
    unfold Location.distance_to
    rw [hav_self_eq_zero a b hlat hlon]
    norm_num [atan2]

/-- Witness for C8 at a concrete pair of equal coordinates. -/
theorem distance_to_symm_and_diag_zero_witness :
    (Location.mk "p" 10 20).distance_to (Location.mk "q" 10 20) = 0 :=
  (distance_to_symm_and_diag_zero (Location.mk "p" 10 20) (Location.mk "q" 10 20)).2 rfl rfl

/-- Preferences with the documented default max_budget = 0 ("unlimited"),
a one-day date range, and the default criteria weights. -/
def prefsBug : UserPreferences :=
  ⟨⟨0⟩, ⟨0⟩, 0, 9, 18, 480, 5, [], ⟨1/4, 1/5, 1/4, 3/20, 3/20⟩⟩

/-- A concrete catalog activity. -/
def aBug : TourismActivity :=
  ⟨"a1", "Museo", ActivityType.museum, none, 120, 25, 9/2, "", 9, 17, true, []⟩

/-- A one-day itinerary scheduling aBug at 09:00. -/
def itinBug : Itinerary :=
  ⟨[⟨⟨0⟩, [⟨aBug, ⟨540⟩, 15, 5⟩], WeatherCondition.sunny⟩], 0⟩

/-- Claim C1: the claim asserts that evaluate computes cost_score by an
explicit branch returning 1.0 when max_budget <= 0.  The code has no such
branch: it always computes 1 - total_cost / max_budget, so with the
documented default max_budget = 0 the evaluation of any nonempty itinerary
raises ZeroDivisionError (modelled as none) instead of scoring it. -/
theorem evaluate_unguarded_budget_division : evaluate prefsBug itinBug = none :=
  evaluate_eq_none_of_budget_zero prefsBug itinBug rfl (by simp [itinBug])

/-- Claim C6: get_available_activities returns exactly the catalog
activities that are not yet used and, when the budget ceiling is positive,
cost at most the ceiling; it is a pure filter of the catalog (a sublist,
so neither the catalog nor the used set is modified). -/
theorem get_available_activities_spec (acts : List TourismActivity)
    (used : Finset String) (b : ℚ) :
    (∀ a, a ∈ get_available_activities acts used b ↔
       a ∈ acts ∧ a.id ∉ used ∧ (0 < b → a.cost ≤ b)) ∧
    (get_available_activities acts used b).Sublist acts := by
  refine ⟨fun a => ?_, ?_⟩
  · unfold get_available_activities
    by_cases hb : b ≤ 0
    · have : ¬ 0 < b := not_lt.mpr hb
      simp [hb, List.mem_filter, this]
    · have : 0 < b := lt_of_not_ge hb
      simp [hb, List.mem_filter, this]
      tauto
  · unfold get_available_activities
    split <;> exact List.filter_sublist _

/-- A concrete activity for the C6 witness. -/
def actW : TourismActivity :=
  ⟨"w1", "Tour", ActivityType.tour, none, 60, 1, 3, "", 9, 17, true, []⟩

/-- Witness for C6: the in-budget unused activity is returned. -/
theorem get_available_activities_spec_witness :
    actW ∈ get_available_activities [actW] ∅ 1 :=
  ((get_available_activities_spec [actW] ∅ 1).1 actW).mpr
    ⟨by simp, by simp, fun _ => le_refl 1⟩

lemma countP_ite_sum {α : Type} (p : α → Prop) [DecidablePred p] (c : ℝ) (l : List α) :
    (l.map (fun x => if p x then c else 0)).sum = c * (l.countP (fun x => decide (p x))) := by
  induction l with
  | nil => simp
  | cons a t ih =>
    rw [List.map_cons, List.sum_cons, List.countP_cons, ih]
    by_cases ha : p a
    · rw [if_pos ha, decide_eq_true ha, if_pos rfl]
      push_cast
      ring
    · rw [if_neg ha, decide_eq_false ha]
      simp

lemma if_not_flip {P : Prop} [Decidable P] (c : ℝ) :
    (if P then (0:ℝ) else c) = (if ¬ P then c else 0) := by
  by_cases h : P <;> simp [h]

lemma sum_map_add3 {α : Type} (f g h : α → ℝ) (l : List α) :
    (l.map (fun d => f d + g d + h d)).sum = (l.map f).sum + (l.map g).sum + (l.map h).sum := by
  induction l with
  | nil => simp
  | cons d t ih =>
    simp only [List.map_cons, List.sum_cons, ih]
    ring

lemma sum_map_mul_const {α : Type} (c : ℝ) (f : α → ℝ) (l : List α) :
    (l.map (fun d => c * f d)).sum = c * (l.map f).sum := by
  induction l with
  | nil => simp
  | cons d t ih =>
    simp only [List.map_cons, List.sum_cons, ih]
    ring

lemma countP_flatMap_sum (l : List DayPlan) (p : ItineraryItem → Bool) :
    (l.map (fun d => ((d.items.countP p : ℕ) : ℝ))).sum
      = (((l.flatMap DayPlan.items).countP p : ℕ) : ℝ) := by
  induction l with
  | nil => simp
  | cons d t ih =>
    rw [List.map_cons, List.sum_cons, List.flatMap_cons, List.countP_append, ih]
    push_cast
    ring

open Classical in
lemma itemPenalty_sum (items : List ItineraryItem) :
    (items.map (fun i =>
        if i.activity.is_available_at i.start_time then (0:ℝ) else (1/5 : ℝ))).sum
      = (1/5 : ℝ) *
        (items.countP (fun i => decide (¬ i.activity.is_available_at i.start_time))) := by
  calc (items.map (fun i =>
        if i.activity.is_available_at i.start_time then (0:ℝ) else (1/5 : ℝ))).sum
      = (items.map (fun i =>
          if ¬ i.activity.is_available_at i.start_time then (1/5 : ℝ) else 0)).sum := by
        refine congrArg List.sum (List.map_congr_left fun i _ => ?_)
        exact if_not_flip (1/5)
    _ = (1/5 : ℝ) *
        (items.countP (fun i => decide (¬ i.activity.is_available_at i.start_time))) :=
        countP_ite_sum (fun i => ¬ i.activity.is_available_at i.start_time) (1/5) items

open Classical in
lemma violations_days_sum (prefs : UserPreferences) (l : List DayPlan) :
    (l.map (fun d =>
        (if prefs.max_daily_duration < d.get_duration then (1/2 : ℝ) else 0)
      + (if (prefs.max_walking_distance : ℝ) < d.get_walking_distance then (3/10 : ℝ) else 0)
      + ((d.items.map (fun i =>
            if i.activity.is_available_at i.start_time then (0:ℝ) else (1/5 : ℝ))).sum))).sum
    = (1/2 : ℝ) * (l.countP (fun d => decide (prefs.max_daily_duration < d.get_duration)))
    + (3/10 : ℝ) * (l.countP (fun d =>
          decide ((prefs.max_walking_distance : ℝ) < d.get_walking_distance)))
    + (1/5 : ℝ) * ((l.flatMap DayPlan.items).countP (fun i =>
          decide (¬ i.activity.is_available_at i.start_time))) := by
  rw [sum_map_add3]
  have e1 := countP_ite_sum (fun d => prefs.max_daily_duration < d.get_duration) (1/2) l
  have e2 := countP_ite_sum
    (fun d => (prefs.max_walking_distance : ℝ) < d.get_walking_distance) (3/10) l
  have e3 : (l.map (fun d => (d.items.map (fun i =>
        if i.activity.is_available_at i.start_time then (0:ℝ) else (1/5 : ℝ))).sum)).sum
      = (1/5 : ℝ) * ((l.flatMap DayPlan.items).countP (fun i =>
          decide (¬ i.activity.is_available_at i.start_time))) := by
    calc (l.map (fun d => (d.items.map (fun i =>
          if i.activity.is_available_at i.start_time then (0:ℝ) else (1/5 : ℝ))).sum)).sum
        = (l.map (fun d => (1/5 : ℝ) * (d.items.countP (fun i =>
            decide (¬ i.activity.is_available_at i.start_time))))).sum := by
          exact congrArg List.sum (List.map_congr_left fun d _ => itemPenalty_sum d.items)
      _ = (1/5 : ℝ) * (l.map (fun d => ((d.items.countP (fun i =>
            decide (¬ i.activity.is_available_at i.start_time)) : ℕ) : ℝ))).sum :=
          sum_map_mul_const _ _ l
      _ = (1/5 : ℝ) * ((l.flatMap DayPlan.items).countP (fun i =>
            decide (¬ i.activity.is_available_at i.start_time))) := by
          rw [countP_flatMap_sum]
  rw [e1, e2, e3]

open Classical in
/-- Claim C7: the evaluator's total penalty is 0.5 per over-long day, plus
0.3 per day whose walking distance exceeds the limit, plus 0.2 per item
scheduled outside its activity's half-open service-hour window, plus 1.0
exactly once when a positive budget is exceeded. -/
theorem violations_closed_form (prefs : UserPreferences) (it : Itinerary) :
    calculate_violations prefs it =
      (1/2 : ℝ) * (it.days.countP (fun d => decide (prefs.max_daily_duration < d.get_duration)))
    + (3/10 : ℝ) * (it.days.countP (fun d =>
          decide ((prefs.max_walking_distance : ℝ) < d.get_walking_distance)))
    + (1/5 : ℝ) * (it.allItems.countP (fun i =>
          decide (¬ i.activity.is_available_at i.start_time)))
    + (if 0 < prefs.max_budget ∧ prefs.max_budget < it.get_total_cost then (1:ℝ) else 0) := by
  unfold calculate_violations Itinerary.allItems
  rw [violations_days_sum prefs it.days]

lemma getD_argmax : ∀ (l : List ℝ), l ≠ [] → l.getD (argmaxIdx l) 0 = maxList l := by
  intro l
  induction l with
  | nil => intro h; exact absurd rfl h
  | cons x t ih =>
    intro _
    cases t with
    | nil => rfl
    | cons y s =>
      simp only [argmaxIdx, maxList]
      by_cases hx : x < maxList (y :: s)
      · rw [if_pos hx, List.getD_cons_succ, ih (by simp), max_eq_right hx.le]
      · rw [if_neg hx, List.getD_cons_zero, max_eq_left (not_lt.1 hx)]

open Classical in
/-- Claim C5: after an UpdateBest step the best-ever score equals the
maximum of its previous value and the generation's maximum fitness (so it
is monotonically non-decreasing), and the retained best individual is
replaced - with a clone of the generation's first argmax individual - only
when the generation's maximum strictly exceeds the previous best score. -/
theorem update_best_monotone (bs : ℝ) (sol : Option Itinerary) (pop : List Itinerary)
    (scores : List ℝ) (h : scores ≠ []) :
    (update_best bs sol pop scores).1 = max bs (maxList scores) ∧
    bs ≤ (update_best bs sol pop scores).1 ∧
    (¬ bs < maxList scores → (update_best bs sol pop scores).2 = sol) ∧
    (bs < maxList scores → (update_best bs sol pop scores).2
        = some ((pop.getD (argmaxIdx scores) emptyItinerary).clone)) := by
  have hm := getD_argmax scores h
  by_cases hc : bs < maxList scores
  · simp only [update_best, hm, if_pos hc]
    exact ⟨(max_eq_right hc.le).symm, hc.le, fun hn => absurd hc hn, fun _ => trivial⟩
  · simp only [update_best, hm, if_neg hc]
    exact ⟨(max_eq_left (not_lt.1 hc)).symm, le_refl bs, fun _ => trivial,
      fun hcon => absurd hcon hc⟩

/-- Witness for C5 on the singleton generation with score 1 and previous
best 0. -/
theorem update_best_monotone_witness :
    (update_best 0 none [] [(1:ℝ)]).1 = max 0 (maxList [(1:ℝ)]) :=
  (update_best_monotone 0 none [] [(1:ℝ)] (by simp)).1

open Classical in
/-- Claim C10: Itinerary.clone keeps the whole day structure (days, items,
weather, timing and cost fields) but resets the cached fitness_score to 0;
consequently whenever _update_best_solution replaces the retained best
individual, the retained clone carries fitness_score 0 rather than the
reported best score. -/
theorem clone_resets_fitness_score :
    (∀ it : Itinerary, it.clone.days = it.days ∧ it.clone.fitness_score = 0) ∧
    (∀ (bs : ℝ) (sol : Option Itinerary) (pop : List Itinerary) (scores : List ℝ),
      (update_best bs sol pop scores).2 ≠ sol →
      ∃ b, (update_best bs sol pop scores).2 = some b ∧ b.fitness_score = 0) := by
  constructor
  · exact fun it => ⟨rfl, rfl⟩
  · intro bs sol pop scores hne
    by_cases hc : bs < scores.getD (argmaxIdx scores) 0
    · refine ⟨(pop.getD (argmaxIdx scores) emptyItinerary).clone, ?_, rfl⟩
      simp only [update_best, if_pos hc]
    · exfalso
      apply hne
      simp only [update_best, if_neg hc]

/-- Witness for C10: with previous best 0 and a generation scoring 1, the
best solution is replaced and the replacement has fitness_score 0. -/
theorem clone_resets_fitness_score_witness :
    ∃ b, (update_best 0 none [] [(1:ℝ)]).2 = some b ∧ b.fitness_score = 0 :=
  clone_resets_fitness_score.2 0 none [] [(1:ℝ)]
    (by simp [update_best, argmaxIdx])

open Classical in
lemma firstConvFrom_succ (scores : ℕ → List ℝ) (g : ℕ) (hg : ¬ convergedAt scores g) :
    firstConvFrom scores g = firstConvFrom scores (g + 1) + 1 := by
  by_cases h' : ∃ k, convergedAt scores (g + 1 + k)
  · have h : ∃ k, convergedAt scores (g + k) := by
      obtain ⟨k, hk⟩ := h'
      exact ⟨k + 1, by rw [show g + (k + 1) = g + 1 + k by ring]; exact hk⟩
    rw [firstConvFrom, dif_pos h, firstConvFrom, dif_pos h']
    have hfind : Nat.find h = Nat.find h' + 1 := by
      rw [Nat.find_eq_iff]
      constructor
      · rw [show g + (Nat.find h' + 1) = g + 1 + Nat.find h' by ring]
        exact Nat.find_spec h'
      · intro m hm
        cases m with
        | zero => simpa using hg
        | succ j =>
          rw [show g + (j + 1) = g + 1 + j by ring]
          exact Nat.find_min h' (by omega)
    rw [hfind]
    push_cast
    ring
  · have h : ¬ ∃ k, convergedAt scores (g + k) := by
      rintro ⟨k, hk⟩
      cases k with
      | zero => exact hg (by simpa using hk)
      | succ j => exact h' ⟨j, by rw [show g + 1 + j = g + (j + 1) by ring]; exact hk⟩
    rw [firstConvFrom, dif_neg h, firstConvFrom, dif_neg h']
    simp

open Classical in
lemma gensRun_eq (scores : ℕ → List ℝ) :
    ∀ (fuel g : ℕ),
      (gensRun scores g fuel : ℕ∞) = min (fuel : ℕ∞) (firstConvFrom scores g + 1) := by
  intro fuel
  induction fuel with
  | zero =>
    intro g
    simp only [gensRun, Nat.cast_zero]
    exact (min_eq_left (zero_le _)).symm
  | succ n ih =>
    intro g
    by_cases hc : convergedAt scores g
    · simp only [gensRun, if_pos hc, Nat.cast_one]
      have h : ∃ k, convergedAt scores (g + k) := ⟨0, by simpa using hc⟩
      have hf : Nat.find h = 0 := by rw [Nat.find_eq_zero]; simpa using hc
      rw [firstConvFrom, dif_pos h, hf, Nat.cast_zero, zero_add]
      have h1 : (1 : ℕ∞) ≤ ((n + 1 : ℕ) : ℕ∞) := by
        exact_mod_cast Nat.succ_le_succ (Nat.zero_le n)
      exact (min_eq_right h1).symm
    · simp only [gensRun, if_neg hc]
      push_cast
      rw [ih (g + 1), firstConvFrom_succ scores g hc, min_add_add_right, add_comm]

open Classical in
/-- Claim C9: the generation loop of optimize executes at most
max_iterations iterations, and it stops early exactly after the first
generation g with g > 100 and population score standard deviation below
0.01: the number of executed generations is the minimum of max_iterations
and (index of the first converged generation) + 1, for every possible
sequence of per-generation fitness scores. -/
theorem optimize_loop_bound (scores : ℕ → List ℝ) (maxIter : ℕ) :
    gensRun scores 0 maxIter ≤ maxIter ∧
    (gensRun scores 0 maxIter : ℕ∞) = min (maxIter : ℕ∞) (firstConvFrom scores 0 + 1) := by
  refine ⟨?_, gensRun_eq scores maxIter 0⟩
  have h := gensRun_eq scores maxIter 0
  have hle : (gensRun scores 0 maxIter : ℕ∞) ≤ (maxIter : ℕ∞) := h ▸ min_le_left _ _
  exact_mod_cast hle

lemma genDates_pos {s e : ℤ} (h : s ≤ e) : genDates s e = s :: genDates (s + 1440) e := by
  rw [genDates, if_pos h]

lemma genDates_neg {s e : ℤ} (h : ¬ s ≤ e) : genDates s e = [] := by
  rw [genDates, if_neg h]

lemma genDates_length : ∀ (n : ℕ) (s e : ℤ), s ≤ e → ((e - s) / 1440).toNat = n →
    (genDates s e).length = n + 1 := by
  intro n
  induction n with
  | zero =>
    intro s e hse hn
    rw [genDates_pos hse, List.length_cons, genDates_neg (by omega), List.length_nil]
  | succ k ih =>
    intro s e hse hn
    rw [genDates_pos hse, List.length_cons, ih (s + 1440) e (by omega) (by omega)]

lemma genItinAux_length (acts : List TourismActivity) (prefs : UserPreferences)
    (os : ℤ → DayOracles) (db : ℚ) :
    ∀ (ms : List ℤ) (used : Finset String),
      (genItinAux acts prefs os db ms used).1.length = ms.length := by
  intro ms
  induction ms with
  | nil => intro used; rfl
  | cons m rest ih =>
    intro used
    simp only [genItinAux, List.length_cons, ih]

lemma crossoverAux_length (pick : ℕ → Bool) :
    ∀ (t1 t2 : List DayPlan) (n : ℕ) (used : Finset String),
      (crossoverAux pick n t1 t2 used).length = min t1.length t2.length := by
  intro t1
  induction t1 with
  | nil => intro t2 n used; cases t2 <;> simp [crossoverAux]
  | cons d1 s1 ih =>
    intro t2 n used
    cases t2 with
    | nil => simp [crossoverAux]
    | cons d2 s2 =>
      simp only [crossoverAux, List.length_cons, ih, Nat.succ_min_succ]

/-- Claim C4: an itinerary generated by random initialization has exactly
(end_date - start_date in days) + 1 day plans, one per calendar day of the
inclusive preference date range; a crossover child of equal-day-count
parents keeps that day count, and clone and the three mutation operators
preserve the day count of every itinerary they touch. -/
theorem itinerary_day_count :
    (∀ (acts : List TourismActivity) (prefs : UserPreferences) (os : ℤ → DayOracles)
        (used : Finset String), prefs.start_date.mins ≤ prefs.end_date.mins →
      ((generate_random_itinerary acts prefs os used).1).days.length
        = ((prefs.end_date.mins - prefs.start_date.mins) / 1440).toNat + 1) ∧
    (∀ (p1 p2 : Itinerary) (pick : ℕ → Bool) (fb : Bool),
      p1.days.length = p2.days.length →
      (crossover p1 p2 pick fb).days.length = p1.days.length) ∧
    (∀ it : Itinerary, it.clone.days.length = it.days.length) ∧
    (∀ (it : Itinerary) (i j k1 k2 : ℕ),
      (mutate_swap it i j k1 k2).days.length = it.days.length) ∧
    (∀ (acts : List TourismActivity) (it : Itinerary) (used : Finset String) (di ii pk : ℕ),
      ((mutate_replace acts it used di ii pk).1).days.length = it.days.length) ∧
    (∀ (it : Itinerary) (i : ℕ) (ni : List ItineraryItem),
      (mutate_shuffle it i ni).days.length = it.days.length) := by
  refine ⟨?_, ?_, ?_, ?_, ?_, ?_⟩
  · intro acts prefs os used h
    unfold generate_random_itinerary
    simp only [genItinAux_length]
    exact genDates_length _ _ _ h rfl
  · intro p1 p2 pick fb h
    unfold crossover
    rw [if_pos h]
    simp [crossoverAux_length, h]
  · intro it
    rfl
  · intro it i j k1 k2
    unfold mutate_swap
    split
    · try dsimp only
      split
      · rfl
      · simp [List.length_set]
    · rfl
  · intro acts it used di ii pk
    unfold mutate_replace
    split
    · rfl
    · try dsimp only
      split
      · rfl
      · try dsimp only
        split
        · rfl
        · simp [List.length_set]
  · intro it i ni
    unfold mutate_shuffle
    split
    · try dsimp only
      split
      · simp [List.length_set]
      · rfl
    · rfl

/-- Concrete preferences for the C4 witness: dates 0 and 1500 minutes. -/
def prefsW : UserPreferences :=
  ⟨⟨0⟩, ⟨1500⟩, 100, 9, 18, 480, 5, [], ⟨1/4, 1/5, 1/4, 3/20, 3/20⟩⟩

/-- Concrete oracle draws for witnesses. -/
def oW : DayOracles := ⟨fun _ => 0, fun _ => 15, fun _ => 5, WeatherCondition.sunny⟩

/-- Witness for C4 at the concrete preference range of prefsW. -/
theorem itinerary_day_count_witness :
    ((generate_random_itinerary [] prefsW (fun _ => oW) ∅).1).days.length
      = ((prefsW.end_date.mins - prefsW.start_date.mins) / 1440).toNat + 1 :=
  itinerary_day_count.1 [] prefsW (fun _ => oW) ∅ (by norm_num [prefsW])

/-- Claim C3: the claim asserts that with an empty catalog optimize returns
an all-empty itinerary scoring 0 with no exception for ANY preferences.
The generator does produce the all-empty-day itinerary, but with the
documented default max_budget = 0 its very first fitness evaluation raises
ZeroDivisionError (cost_score divides by max_budget even though total cost
is 0): the generated individual evaluates to none for every random draw. -/
theorem empty_catalog_evaluation_raises (os : ℤ → DayOracles) (used : Finset String) :
    evaluate prefsBug ((generate_random_itinerary [] prefsBug os used).1) = none := by
  have h1 : ((generate_random_itinerary [] prefsBug os used).1).days.length = 1 := by
    unfold generate_random_itinerary
    simp only [genItinAux_length]
    exact genDates_length 0 _ _ (by norm_num [prefsBug]) (by norm_num [prefsBug])
  refine evaluate_eq_none_of_budget_zero _ _ rfl fun hnil => ?_
  rw [hnil] at h1
  simp at h1

lemma map_eraseIdx_comm {α β : Type} (f : α → β) :
    ∀ (l : List α) (k : ℕ), (l.eraseIdx k).map f = (l.map f).eraseIdx k := by
  intro l
  induction l with
  | nil => intro k; cases k <;> rfl
  | cons a t ih =>
    intro k
    cases k with
    | zero => rfl
    | succ j => simp [List.eraseIdx_cons_succ, ih]

lemma getD_map_comm {α β : Type} (f : α → β) :
    ∀ (l : List α) (k : ℕ) (x : α), (l.map f).getD k (f x) = f (l.getD k x) := by
  intro l
  induction l with
  | nil => intro k x; cases k <;> rfl
  | cons a t ih =>
    intro k x
    cases k with
    | zero => rfl
    | succ j => simp [ih j x]

lemma eraseIdx_getD_perm {α : Type} (x : α) :
    ∀ (l : List α) (k : ℕ), k < l.length → (l.eraseIdx k ++ [l.getD k x]).Perm l := by
  intro l
  induction l with
  | nil => intro k h; simp at h
  | cons a t ih =>
    intro k h
    cases k with
    | zero =>
      rw [List.eraseIdx_cons_zero, List.getD_cons_zero]
      exact List.perm_append_singleton a t
    | succ j =>
      rw [List.eraseIdx_cons_succ, List.getD_cons_succ, List.cons_append]
      exact (ih j (by simpa using h)).cons a

lemma nodup_eraseIdx_ne_getD {α : Type} (x : α) :
    ∀ (l : List α) (k : ℕ), l.Nodup → k < l.length →
      ∀ b ∈ l.eraseIdx k, b ≠ l.getD k x := by
  intro l
  induction l with
  | nil => intro k _ h; simp at h
  | cons a t ih =>
    intro k hnd hk b hb
    cases k with
    | zero =>
      rw [List.eraseIdx_cons_zero] at hb
      rw [List.getD_cons_zero]
      exact fun he => (List.nodup_cons.1 hnd).1 (he ▸ hb)
    | succ j =>
      rw [List.eraseIdx_cons_succ] at hb
      rw [List.getD_cons_succ]
      rcases List.mem_cons.1 hb with hba | hbt
      · subst hba
        intro he
        apply (List.nodup_cons.1 hnd).1
        rw [List.getD_eq_getElem t x (by simpa using hk)] at he
        exact he ▸ List.getElem_mem _
      · exact ih j (List.nodup_cons.1 hnd).2 (by simpa using hk) b hbt

/-- Multiset of activity ids of one day plan. -/
def dayIdsM (d : DayPlan) : Multiset String := (d.itemIds : Multiset String)

/-- Multiset of activity ids of a list of day plans. -/
def daysIdsM (l : List DayPlan) : Multiset String :=
  ((l.flatMap DayPlan.itemIds : List String) : Multiset String)

lemma daysIdsM_cons (d : DayPlan) (t : List DayPlan) :
    daysIdsM (d :: t) = dayIdsM d + daysIdsM t := by
  unfold daysIdsM dayIdsM
  rw [List.flatMap_cons, Multiset.coe_add]

lemma allIds_nodup_iff (it : Itinerary) : it.allIds.Nodup ↔ (daysIdsM it.days).Nodup := by
  unfold Itinerary.allIds daysIdsM
  exact Multiset.coe_nodup.symm

lemma daysIdsM_set : ∀ (l : List DayPlan) (i : ℕ) (d' : DayPlan), i < l.length →
    daysIdsM (l.set i d') + dayIdsM (l.getD i defaultDay) = dayIdsM d' + daysIdsM l := by
  intro l
  induction l with
  | nil => intro i d' h; simp at h
  | cons d t ih =>
    intro i d' h
    cases i with
    | zero =>
      rw [List.set_cons_zero, List.getD_cons_zero, daysIdsM_cons, daysIdsM_cons]
      abel
    | succ j =>
      rw [List.set_cons_succ, List.getD_cons_succ, daysIdsM_cons, daysIdsM_cons,
        add_assoc, ih j d' (by simpa using h)]
      abel

/-- The multiset of ids of a day after removing the item at a valid index
and appending a replacement. -/
lemma dayIdsM_erase_append (d : DayPlan) (k : ℕ) (x : ItineraryItem) (w : WeatherCondition)
    (dt : DateTime) (hk : k < d.items.length) :
    dayIdsM ⟨dt, d.items.eraseIdx k ++ [x], w⟩
        + {(d.items.getD k defaultItem).activity.id}
      = {x.activity.id} + dayIdsM d := by
  unfold dayIdsM DayPlan.itemIds
  rw [List.map_append, map_eraseIdx_comm]
  have hk' : k < (d.items.map (fun i => i.activity.id)).length := by simpa using hk
  have hold : ((d.items.map (fun i => i.activity.id)).getD k defaultItem.activity.id)
      = (d.items.getD k defaultItem).activity.id := getD_map_comm _ d.items k defaultItem
  have hperm := eraseIdx_getD_perm defaultItem.activity.id
    (d.items.map (fun i => i.activity.id)) k hk'
  have hcoe : (((d.items.map (fun i => i.activity.id)).eraseIdx k
        ++ [(d.items.map (fun i => i.activity.id)).getD k defaultItem.activity.id])
          : Multiset String)
      = ((d.items.map (fun i => i.activity.id) : List String) : Multiset String) :=
    Quot.sound hperm
  simp only [List.map_cons, List.map_nil]
  rw [← Multiset.coe_add, Multiset.coe_singleton]
  rw [← Multiset.coe_add, Multiset.coe_singleton, hold] at hcoe
  calc ((d.items.map (fun i => i.activity.id)).eraseIdx k : Multiset String)
        + ({x.activity.id} : Multiset String)
        + {(d.items.getD k defaultItem).activity.id}
      = ((d.items.map (fun i => i.activity.id)).eraseIdx k : Multiset String)
        + {(d.items.getD k defaultItem).activity.id} + {x.activity.id} := by abel
    _ = ((d.items.map (fun i => i.activity.id) : List String) : Multiset String)
        + {x.activity.id} := by rw [hcoe]
    _ = {x.activity.id}
        + ((d.items.map (fun i => i.activity.id) : List String) : Multiset String) := by abel

lemma swap_days_idsM (days : List DayPlan) (i j : ℕ) (d1' d2' : DayPlan)
    (hi : i < days.length) (hj : j < days.length) (hij : i ≠ j)
    (hpres : dayIdsM d1' + dayIdsM d2'
      = dayIdsM (days.getD i defaultDay) + dayIdsM (days.getD j defaultDay)) :
    daysIdsM ((days.set i d1').set j d2') = daysIdsM days := by
  have hj' : j < (days.set i d1').length := by simpa using hj
  have e2 := daysIdsM_set (days.set i d1') j d2' hj'
  have egetD : (days.set i d1').getD j defaultDay = days.getD j defaultDay := by
    rw [List.getD_eq_getElem _ _ hj', List.getD_eq_getElem _ _ hj]
    exact List.getElem_set_ne hij _
  rw [egetD] at e2
  have e1 := daysIdsM_set days i d1' hi
  have key : daysIdsM ((days.set i d1').set j d2')
        + (dayIdsM (days.getD j defaultDay) + dayIdsM (days.getD i defaultDay))
      = daysIdsM days
        + (dayIdsM (days.getD j defaultDay) + dayIdsM (days.getD i defaultDay)) := by
    calc daysIdsM ((days.set i d1').set j d2')
          + (dayIdsM (days.getD j defaultDay) + dayIdsM (days.getD i defaultDay))
        = (daysIdsM ((days.set i d1').set j d2') + dayIdsM (days.getD j defaultDay))
          + dayIdsM (days.getD i defaultDay) := by abel
      _ = (dayIdsM d2' + daysIdsM (days.set i d1')) + dayIdsM (days.getD i defaultDay) := by
          rw [e2]
      _ = dayIdsM d2' + (daysIdsM (days.set i d1') + dayIdsM (days.getD i defaultDay)) := by
          abel
      _ = dayIdsM d2' + (dayIdsM d1' + daysIdsM days) := by rw [e1]
      _ = (dayIdsM d1' + dayIdsM d2') + daysIdsM days := by abel
      _ = (dayIdsM (days.getD i defaultDay) + dayIdsM (days.getD j defaultDay))
          + daysIdsM days := by rw [hpres]
      _ = daysIdsM days
          + (dayIdsM (days.getD j defaultDay) + dayIdsM (days.getD i defaultDay)) := by abel
  exact add_right_cancel key

lemma mutate_swap_nodup (it : Itinerary) (i j k1 k2 : ℕ) (h : it.allIds.Nodup) :
    (mutate_swap it i j k1 k2).allIds.Nodup := by
  unfold mutate_swap
  split
  · rename_i hcond
    obtain ⟨hi, hj, hij⟩ := hcond
    try dsimp only
    split
    · exact h
    · rename_i hne
      rw [not_or] at hne
      obtain ⟨hne1, hne2⟩ := hne
      have hlen1 : 0 < (it.days.getD i defaultDay).items.length :=
        List.length_pos.mpr (by simpa [List.isEmpty_iff] using hne1)
      have hlen2 : 0 < (it.days.getD j defaultDay).items.length :=
        List.length_pos.mpr (by simpa [List.isEmpty_iff] using hne2)
      have hk1 : k1 % (it.days.getD i defaultDay).items.length
          < (it.days.getD i defaultDay).items.length := Nat.mod_lt _ hlen1
      have hk2 : k2 % (it.days.getD j defaultDay).items.length
          < (it.days.getD j defaultDay).items.length := Nat.mod_lt _ hlen2
      rw [allIds_nodup_iff] at h ⊢
      have ea := dayIdsM_erase_append (it.days.getD i defaultDay)
        (k1 % (it.days.getD i defaultDay).items.length)
        ((it.days.getD j defaultDay).items.getD
          (k2 % (it.days.getD j defaultDay).items.length) defaultItem)
        (it.days.getD i defaultDay).weather (it.days.getD i defaultDay).date hk1
      have eb := dayIdsM_erase_append (it.days.getD j defaultDay)
        (k2 % (it.days.getD j defaultDay).items.length)
        ((it.days.getD i defaultDay).items.getD
          (k1 % (it.days.getD i defaultDay).items.length) defaultItem)
        (it.days.getD j defaultDay).weather (it.days.getD j defaultDay).date hk2
      have hpres : dayIdsM ⟨(it.days.getD i defaultDay).date,
            (it.days.getD i defaultDay).items.eraseIdx
              (k1 % (it.days.getD i defaultDay).items.length)
              ++ [(it.days.getD j defaultDay).items.getD
                    (k2 % (it.days.getD j defaultDay).items.length) defaultItem],
            (it.days.getD i defaultDay).weather⟩
          + dayIdsM ⟨(it.days.getD j defaultDay).date,
            (it.days.getD j defaultDay).items.eraseIdx
              (k2 % (it.days.getD j defaultDay).items.length)
              ++ [(it.days.getD i defaultDay).items.getD
                    (k1 % (it.days.getD i defaultDay).items.length) defaultItem],
            (it.days.getD j defaultDay).weather⟩
          = dayIdsM (it.days.getD i defaultDay) + dayIdsM (it.days.getD j defaultDay) := by
        apply add_right_cancel (b := {((it.days.getD i defaultDay).items.getD
            (k1 % (it.days.getD i defaultDay).items.length) defaultItem).activity.id}
          + {((it.days.getD j defaultDay).items.getD
            (k2 % (it.days.getD j defaultDay).items.length) defaultItem).activity.id})
        calc _ = (dayIdsM ⟨(it.days.getD i defaultDay).date, _, _⟩
              + {((it.days.getD i defaultDay).items.getD
                  (k1 % (it.days.getD i defaultDay).items.length) defaultItem).activity.id})
              + (dayIdsM ⟨(it.days.getD j defaultDay).date, _, _⟩
              + {((it.days.getD j defaultDay).items.getD
                  (k2 % (it.days.getD j defaultDay).items.length) defaultItem).activity.id}) := by
              abel
          _ = ({((it.days.getD j defaultDay).items.getD
                  (k2 % (it.days.getD j defaultDay).items.length) defaultItem).activity.id}
              + dayIdsM (it.days.getD i defaultDay))
              + ({((it.days.getD i defaultDay).items.getD
                  (k1 % (it.days.getD i defaultDay).items.length) defaultItem).activity.id}
              + dayIdsM (it.days.getD j defaultDay)) := by rw [ea, eb]
          _ = _ := by abel
      rw [swap_days_idsM it.days i j _ _ hi hj hij hpres]
      exact h
  · exact h

lemma mem_available_not_used (acts : List TourismActivity) (used : Finset String)
    (budget : ℚ) (a : TourismActivity)
    (ha : a ∈ get_available_activities acts used budget) : a.id ∉ used := by
  unfold get_available_activities at ha
  split at ha <;> simp [List.mem_filter] at ha <;> tauto

lemma mutate_shuffle_nodup (it : Itinerary) (i : ℕ) (ni : List ItineraryItem)
    (h : it.allIds.Nodup) (hperm : ni.Perm (it.days.getD i defaultDay).items) :
    (mutate_shuffle it i ni).allIds.Nodup := by
  unfold mutate_shuffle
  split
  · try dsimp only
    split
    · rename_i hi _
      have hset := daysIdsM_set it.days i
        ⟨(it.days.getD i defaultDay).date, ni, (it.days.getD i defaultDay).weather⟩ hi
      have hpermM : dayIdsM
          ⟨(it.days.getD i defaultDay).date, ni, (it.days.getD i defaultDay).weather⟩
          = dayIdsM (it.days.getD i defaultDay) := by
        unfold dayIdsM DayPlan.itemIds
        exact Quot.sound (hperm.map _)
      rw [hpermM, add_comm (dayIdsM (it.days.getD i defaultDay)) (daysIdsM it.days)]
        at hset
      have heq : daysIdsM (it.days.set i
          ⟨(it.days.getD i defaultDay).date, ni, (it.days.getD i defaultDay).weather⟩)
          = daysIdsM it.days := add_right_cancel hset
      have hres : ((it.days.set i ⟨(it.days.getD i defaultDay).date, ni,
          (it.days.getD i defaultDay).weather⟩).flatMap DayPlan.itemIds).Nodup := by
        rw [← Multiset.coe_nodup]
        show (daysIdsM (it.days.set i ⟨(it.days.getD i defaultDay).date, ni,
          (it.days.getD i defaultDay).weather⟩)).Nodup
        rw [heq]
        exact Multiset.coe_nodup.mpr h
      exact hres
    · exact h
  · exact h

lemma replace_surgery_nodup (days : List DayPlan) (dIdx iIdx : ℕ)
    (newAct : TourismActivity) (st : DateTime) (tt : ℤ) (tc : ℚ)
    (hdi : dIdx < days.length)
    (hii : iIdx < (days.getD dIdx defaultDay).items.length)
    (hnd : (days.flatMap DayPlan.itemIds).Nodup)
    (hnew : newAct.id ∉ ((days.flatMap DayPlan.itemIds).toFinset.erase
        ((days.getD dIdx defaultDay).items.getD iIdx defaultItem).activity.id)) :
    ((days.set dIdx ⟨(days.getD dIdx defaultDay).date,
        (days.getD dIdx defaultDay).items.eraseIdx iIdx ++ [⟨newAct, st, tt, tc⟩],
        (days.getD dIdx defaultDay).weather⟩).flatMap DayPlan.itemIds).Nodup := by
  have hndM : (daysIdsM days).Nodup := Multiset.coe_nodup.mpr hnd
  have hset := daysIdsM_set days dIdx
    ⟨(days.getD dIdx defaultDay).date,
      (days.getD dIdx defaultDay).items.eraseIdx iIdx ++ [⟨newAct, st, tt, tc⟩],
      (days.getD dIdx defaultDay).weather⟩ hdi
  have herase : dayIdsM ⟨(days.getD dIdx defaultDay).date,
      (days.getD dIdx defaultDay).items.eraseIdx iIdx ++ [⟨newAct, st, tt, tc⟩],
      (days.getD dIdx defaultDay).weather⟩
      + {((days.getD dIdx defaultDay).items.getD iIdx defaultItem).activity.id}
      = {newAct.id} + dayIdsM (days.getD dIdx defaultDay) :=
    dayIdsM_erase_append (days.getD dIdx defaultDay) iIdx
      ⟨newAct, st, tt, tc⟩ (days.getD dIdx defaultDay).weather
      (days.getD dIdx defaultDay).date hii
  have key : daysIdsM (days.set dIdx ⟨(days.getD dIdx defaultDay).date,
        (days.getD dIdx defaultDay).items.eraseIdx iIdx ++ [⟨newAct, st, tt, tc⟩],
        (days.getD dIdx defaultDay).weather⟩)
        + {((days.getD dIdx defaultDay).items.getD iIdx defaultItem).activity.id}
      = {newAct.id} + daysIdsM days := by
    apply add_right_cancel (b := dayIdsM (days.getD dIdx defaultDay))
    calc daysIdsM (days.set dIdx ⟨(days.getD dIdx defaultDay).date,
            (days.getD dIdx defaultDay).items.eraseIdx iIdx ++ [⟨newAct, st, tt, tc⟩],
            (days.getD dIdx defaultDay).weather⟩)
          + {((days.getD dIdx defaultDay).items.getD iIdx defaultItem).activity.id}
          + dayIdsM (days.getD dIdx defaultDay)
        = daysIdsM (days.set dIdx ⟨(days.getD dIdx defaultDay).date,
            (days.getD dIdx defaultDay).items.eraseIdx iIdx ++ [⟨newAct, st, tt, tc⟩],
            (days.getD dIdx defaultDay).weather⟩)
          + dayIdsM (days.getD dIdx defaultDay)
          + {((days.getD dIdx defaultDay).items.getD iIdx defaultItem).activity.id} := by
          abel
      _ = (dayIdsM ⟨(days.getD dIdx defaultDay).date,
            (days.getD dIdx defaultDay).items.eraseIdx iIdx ++ [⟨newAct, st, tt, tc⟩],
            (days.getD dIdx defaultDay).weather⟩ + daysIdsM days)
          + {((days.getD dIdx defaultDay).items.getD iIdx defaultItem).activity.id} := by
          rw [hset]
      _ = (dayIdsM ⟨(days.getD dIdx defaultDay).date,
            (days.getD dIdx defaultDay).items.eraseIdx iIdx ++ [⟨newAct, st, tt, tc⟩],
            (days.getD dIdx defaultDay).weather⟩
          + {((days.getD dIdx defaultDay).items.getD iIdx defaultItem).activity.id})
          + daysIdsM days := by abel
      _ = ({newAct.id} + dayIdsM (days.getD dIdx defaultDay)) + daysIdsM days := by
          rw [herase]
      _ = {newAct.id} + daysIdsM days + dayIdsM (days.getD dIdx defaultDay) := by abel
  have hold_mem : ((days.getD dIdx defaultDay).items.getD iIdx defaultItem).activity.id
      ∈ daysIdsM days := by
    rw [daysIdsM, Multiset.mem_coe, List.mem_flatMap]
    refine ⟨days.getD dIdx defaultDay, ?_, ?_⟩
    · rw [List.getD_eq_getElem _ _ hdi]
      exact List.getElem_mem _
    · unfold DayPlan.itemIds
      refine List.mem_map.mpr ⟨(days.getD dIdx defaultDay).items.getD iIdx defaultItem, ?_, rfl⟩
      rw [List.getD_eq_getElem _ _ hii]
      exact List.getElem_mem _
  have hM : ({((days.getD dIdx defaultDay).items.getD iIdx defaultItem).activity.id}
        : Multiset String)
      + (daysIdsM days).erase
          ((days.getD dIdx defaultDay).items.getD iIdx defaultItem).activity.id
      = daysIdsM days := by
    rw [Multiset.singleton_add]
    exact Multiset.cons_erase hold_mem
  have hnewM : daysIdsM (days.set dIdx ⟨(days.getD dIdx defaultDay).date,
        (days.getD dIdx defaultDay).items.eraseIdx iIdx ++ [⟨newAct, st, tt, tc⟩],
        (days.getD dIdx defaultDay).weather⟩)
      = {newAct.id} + ((daysIdsM days).erase
          ((days.getD dIdx defaultDay).items.getD iIdx defaultItem).activity.id) := by
    apply add_right_cancel
      (b := ({((days.getD dIdx defaultDay).items.getD iIdx defaultItem).activity.id}
        : Multiset String))
    rw [key]
    nth_rewrite 1 [← hM]
    abel
  rw [← Multiset.coe_nodup]
  show (daysIdsM (days.set dIdx ⟨(days.getD dIdx defaultDay).date,
      (days.getD dIdx defaultDay).items.eraseIdx iIdx ++ [⟨newAct, st, tt, tc⟩],
      (days.getD dIdx defaultDay).weather⟩)).Nodup
  rw [hnewM, Multiset.singleton_add, Multiset.nodup_cons]
  refine ⟨?_, hndM.erase _⟩
  intro hmem
  rw [hndM.mem_erase_iff] at hmem
  exact hnew (Finset.mem_erase.mpr ⟨hmem.1, by
    rw [List.mem_toFinset]
    exact Multiset.mem_coe.1 hmem.2⟩)

lemma mutate_replace_nodup (acts : List TourismActivity) (it : Itinerary) (di ii pk : ℕ)
    (h : it.allIds.Nodup) :
    ((mutate_replace acts it it.allIds.toFinset di ii pk).1).allIds.Nodup := by
  unfold mutate_replace
  split
  · exact h
  · rename_i hdays
    try dsimp only
    split
    · exact h
    · rename_i hitems
      try dsimp only
      split
      · exact h
      · rename_i havail
        have hdlen : 0 < it.days.length :=
          List.length_pos.mpr (by simpa [List.isEmpty_iff] using hdays)
        have hdi : di % it.days.length < it.days.length := Nat.mod_lt _ hdlen
        have hilen : 0 < (it.days.getD (di % it.days.length) defaultDay).items.length :=
          List.length_pos.mpr (by simpa [List.isEmpty_iff] using hitems)
        have hii : ii % (it.days.getD (di % it.days.length) defaultDay).items.length
            < (it.days.getD (di % it.days.length) defaultDay).items.length :=
          Nat.mod_lt _ hilen
        have halen : 0 < (get_available_activities acts
            (it.allIds.toFinset.erase
              ((it.days.getD (di % it.days.length) defaultDay).items.getD
                (ii % (it.days.getD (di % it.days.length) defaultDay).items.length)
                defaultItem).activity.id)
            (((it.days.getD (di % it.days.length) defaultDay).items.getD
                (ii % (it.days.getD (di % it.days.length) defaultDay).items.length)
                defaultItem).activity.cost * (12/10))).length :=
          List.length_pos.mpr (by simpa [List.isEmpty_iff] using havail)
        have hnew : ((get_available_activities acts
              (it.allIds.toFinset.erase
                ((it.days.getD (di % it.days.length) defaultDay).items.getD
                  (ii % (it.days.getD (di % it.days.length) defaultDay).items.length)
                  defaultItem).activity.id)
              (((it.days.getD (di % it.days.length) defaultDay).items.getD
                  (ii % (it.days.getD (di % it.days.length) defaultDay).items.length)
                  defaultItem).activity.cost * (12/10))).getD
                (pk % (get_available_activities acts
                  (it.allIds.toFinset.erase
                    ((it.days.getD (di % it.days.length) defaultDay).items.getD
                      (ii % (it.days.getD (di % it.days.length) defaultDay).items.length)
                      defaultItem).activity.id)
                  (((it.days.getD (di % it.days.length) defaultDay).items.getD
                      (ii % (it.days.getD (di % it.days.length) defaultDay).items.length)
                      defaultItem).activity.cost * (12/10))).length)
                defaultActivity).id
            ∉ it.allIds.toFinset.erase
                ((it.days.getD (di % it.days.length) defaultDay).items.getD
                  (ii % (it.days.getD (di % it.days.length) defaultDay).items.length)
                  defaultItem).activity.id := by
          apply mem_available_not_used acts _ _ _
          rw [List.getD_eq_getElem _ _ (Nat.mod_lt _ halen)]
          exact List.getElem_mem _
        exact replace_surgery_nodup it.days (di % it.days.length)
          (ii % (it.days.getD (di % it.days.length) defaultDay).items.length)
          _ _ _ _ hdi hii h hnew

lemma crossFilterItems_spec : ∀ (items : List ItineraryItem) (used : Finset String),
    ((crossFilterItems items used).1.map (fun i => i.activity.id)).Nodup ∧
    (∀ s ∈ (crossFilterItems items used).1.map (fun i => i.activity.id), s ∉ used) ∧
    used ⊆ (crossFilterItems items used).2 ∧
    (∀ s ∈ (crossFilterItems items used).1.map (fun i => i.activity.id),
      s ∈ (crossFilterItems items used).2) := by
  intro items
  induction items with
  | nil =>
    intro used
    exact ⟨List.nodup_nil, by simp [crossFilterItems], Finset.Subset.refl used,
      by simp [crossFilterItems]⟩
  | cons i rest ih =>
    intro used
    unfold crossFilterItems
    split
    · exact ih used
    · rename_i hmem
      try dsimp only
      obtain ⟨h1, h2, h3, h4⟩ := ih (insert i.activity.id used)
      refine ⟨?_, ?_, ?_, ?_⟩
      · rw [List.map_cons, List.nodup_cons]
        exact ⟨fun hin => h2 _ hin (Finset.mem_insert_self _ _), h1⟩
      · intro s hs
        rw [List.map_cons, List.mem_cons] at hs
        rcases hs with rfl | hs
        · exact hmem
        · exact fun hin => h2 s hs (Finset.mem_insert_of_mem hin)
      · exact (Finset.subset_insert _ _).trans h3
      · intro s hs
        rw [List.map_cons, List.mem_cons] at hs
        rcases hs with rfl | hs
        · exact h3 (Finset.mem_insert_self _ _)
        · exact h4 s hs

lemma crossoverAux_spec (pick : ℕ → Bool) :
    ∀ (t1 t2 : List DayPlan) (n : ℕ) (used : Finset String),
      ((crossoverAux pick n t1 t2 used).flatMap DayPlan.itemIds).Nodup ∧
      (∀ s ∈ (crossoverAux pick n t1 t2 used).flatMap DayPlan.itemIds, s ∉ used) := by
  intro t1
  induction t1 with
  | nil => intro t2 n used; simp [crossoverAux]
  | cons d1 s1 ih =>
    intro t2 n used
    cases t2 with
    | nil => simp [crossoverAux]
    | cons d2 s2 =>
      unfold crossoverAux
      try dsimp only
      obtain ⟨f1, f2, f3, f4⟩ := crossFilterItems_spec (if pick n then d1 else d2).items used
      obtain ⟨g1, g2⟩ := ih s2 (n + 1)
        (crossFilterItems (if pick n then d1 else d2).items used).2
      rw [List.flatMap_cons]
      constructor
      · rw [List.nodup_append]
        exact ⟨f1, g1, fun a ha1 ha2 => g2 a ha2 (f4 a ha1)⟩
      · intro s hs
        rcases List.mem_append.1 hs with hs | hs
        · exact f2 s hs
        · exact fun hin => g2 s hs (f3 hin)

lemma crossover_nodup (p1 p2 : Itinerary) (pick : ℕ → Bool) (fb : Bool)
    (h1 : p1.allIds.Nodup) (h2 : p2.allIds.Nodup) :
    (crossover p1 p2 pick fb).allIds.Nodup := by
  unfold crossover
  split
  · exact (crossoverAux_spec pick p1.days p2.days 0 ∅).1
  · by_cases hfb : fb
    · simp only [hfb, if_pos]
      exact h1
    · simp only [hfb, if_neg, Bool.false_eq_true, if_false]
      exact h2

lemma genDayLoop_ids (prefs : UserPreferences) (budget : ℚ) (o : DayOracles) :
    ∀ (N : ℕ) (avail : List TourismActivity) (step : ℕ) (time : DateTime) (cost : ℚ)
      (used : Finset String), avail.length ≤ N →
      (avail.map (fun a => a.id)).Nodup →
      (∀ a ∈ avail, a.id ∉ used) →
      (((genDayLoop prefs budget o step avail time cost used).1.map
          (fun i => i.activity.id)).Nodup ∧
       (∀ s ∈ (genDayLoop prefs budget o step avail time cost used).1.map
          (fun i => i.activity.id), s ∉ used) ∧
       used ⊆ (genDayLoop prefs budget o step avail time cost used).2 ∧
       (∀ s ∈ (genDayLoop prefs budget o step avail time cost used).1.map
          (fun i => i.activity.id),
          s ∈ (genDayLoop prefs budget o step avail time cost used).2)) := by
  intro N
  induction N with
  | zero =>
    intro avail step time cost used hlen hnd hdisj
    have hnil : avail = [] := List.length_eq_zero.mp (Nat.le_zero.mp hlen)
    subst hnil
    rw [genDayLoop, dif_neg (by simp)]
    exact ⟨List.nodup_nil, by simp, Finset.Subset.refl _, by simp⟩
  | succ n ih =>
    intro avail step time cost used hlen hnd hdisj
    rw [genDayLoop]
    by_cases hcond : time.hour < prefs.daily_end_hour - 1 ∧ 0 < avail.length
    · rw [dif_pos hcond]
      try dsimp only
      have hidx : o.pick step % avail.length < avail.length := Nat.mod_lt _ hcond.2
      have hmem_a : avail.getD (o.pick step % avail.length) defaultActivity ∈ avail := by
        rw [List.getD_eq_getElem _ _ hidx]
        exact List.getElem_mem _
      have hlen' : (avail.eraseIdx (o.pick step % avail.length)).length ≤ n := by
        rw [List.length_eraseIdx]
        simp only [hidx, if_true]
        omega
      have hnd' : ((avail.eraseIdx (o.pick step % avail.length)).map
          (fun a => a.id)).Nodup := by
        rw [map_eraseIdx_comm]
        exact (List.eraseIdx_sublist _ _).nodup hnd
      have hdisj' : ∀ b ∈ avail.eraseIdx (o.pick step % avail.length),
          b.id ∉ insert (avail.getD (o.pick step % avail.length) defaultActivity).id used := by
        intro b hb
        rw [Finset.mem_insert, not_or]
        constructor
        · have hbid : b.id ∈ (avail.map (fun a => a.id)).eraseIdx
              (o.pick step % avail.length) := by
            rw [← map_eraseIdx_comm]
            exact List.mem_map_of_mem _ hb
          have hne := nodup_eraseIdx_ne_getD defaultActivity.id
            (avail.map (fun a => a.id)) (o.pick step % avail.length) hnd
            (by simpa using hidx) b.id hbid
          rw [getD_map_comm] at hne
          exact hne
        · exact hdisj b ((List.eraseIdx_sublist _ _).subset hb)
      by_cases hbud : budget ≤ 0 ∨
          cost + (avail.getD (o.pick step % avail.length) defaultActivity).cost ≤ budget
      · rw [if_pos hbud]
        try dsimp only
        obtain ⟨r1, r2, r3, r4⟩ := ih (avail.eraseIdx (o.pick step % avail.length))
          (step + 1)
          (time.addMinutes ((avail.getD (o.pick step % avail.length)
            defaultActivity).duration_minutes + o.ttime step))
          (cost + (avail.getD (o.pick step % avail.length) defaultActivity).cost
            + o.tcost step)
          (insert (avail.getD (o.pick step % avail.length) defaultActivity).id used)
          hlen' hnd' hdisj'
        refine ⟨?_, ?_, ?_, ?_⟩
        · rw [List.map_cons, List.nodup_cons]
          exact ⟨fun hin => r2 _ hin (Finset.mem_insert_self _ _), r1⟩
        · intro s hs
          rw [List.map_cons, List.mem_cons] at hs
          rcases hs with rfl | hs
          · exact hdisj _ hmem_a
          · exact fun hin => r2 s hs (Finset.mem_insert_of_mem hin)
        · exact (Finset.subset_insert _ _).trans r3
        · intro s hs
          rw [List.map_cons, List.mem_cons] at hs
          rcases hs with rfl | hs
          · exact r3 (Finset.mem_insert_self _ _)
          · exact r4 s hs
      · rw [if_neg hbud]
        obtain ⟨r1, r2, r3, r4⟩ := ih (avail.eraseIdx (o.pick step % avail.length))
          (step + 1) time cost
          (insert (avail.getD (o.pick step % avail.length) defaultActivity).id used)
          hlen' hnd' hdisj'
        exact ⟨r1, fun s hs hin => r2 s hs (Finset.mem_insert_of_mem hin),
          (Finset.subset_insert _ _).trans r3, r4⟩
    · rw [dif_neg hcond]
      exact ⟨List.nodup_nil, by simp, Finset.Subset.refl _, by simp⟩

lemma generate_random_day_ids (acts : List TourismActivity) (prefs : UserPreferences)
    (o : DayOracles) (date : DateTime) (budget : ℚ) (used : Finset String)
    (hnd : (acts.map (fun a => a.id)).Nodup) :
    ((generate_random_day acts prefs o date budget used).1).itemIds.Nodup ∧
    (∀ s ∈ ((generate_random_day acts prefs o date budget used).1).itemIds, s ∉ used) ∧
    used ⊆ (generate_random_day acts prefs o date budget used).2 ∧
    (∀ s ∈ ((generate_random_day acts prefs o date budget used).1).itemIds,
      s ∈ (generate_random_day acts prefs o date budget used).2) := by
  unfold generate_random_day
  try dsimp only
  split
  · exact ⟨List.nodup_nil, by simp [DayPlan.itemIds], Finset.Subset.refl _,
      by simp [DayPlan.itemIds]⟩
  · try dsimp only
    have hsub : List.Sublist (get_available_activities acts used budget) acts := by
      unfold get_available_activities
      split <;> exact List.filter_sublist _
    have hnd' : ((get_available_activities acts used budget).map (fun a => a.id)).Nodup :=
      (hsub.map _).nodup hnd
    have hdisj : ∀ a ∈ get_available_activities acts used budget, a.id ∉ used :=
      fun a ha => mem_available_not_used acts used budget a ha
    obtain ⟨r1, r2, r3, r4⟩ := genDayLoop_ids prefs budget o
      (get_available_activities acts used budget).length
      (get_available_activities acts used budget) 0
      (date.replaceHour prefs.daily_start_hour) 0 used (le_refl _) hnd' hdisj
    exact ⟨r1, r2, r3, r4⟩

lemma genItinAux_ids (acts : List TourismActivity) (prefs : UserPreferences)
    (os : ℤ → DayOracles) (db : ℚ) (hnd : (acts.map (fun a => a.id)).Nodup) :
    ∀ (ms : List ℤ) (used : Finset String),
      ((genItinAux acts prefs os db ms used).1.flatMap DayPlan.itemIds).Nodup ∧
      (∀ s ∈ (genItinAux acts prefs os db ms used).1.flatMap DayPlan.itemIds, s ∉ used) ∧
      used ⊆ (genItinAux acts prefs os db ms used).2 ∧
      (∀ s ∈ (genItinAux acts prefs os db ms used).1.flatMap DayPlan.itemIds,
        s ∈ (genItinAux acts prefs os db ms used).2) := by
  intro ms
  induction ms with
  | nil =>
    intro used
    exact ⟨by simp [genItinAux], by simp [genItinAux], Finset.Subset.refl _,
      by simp [genItinAux]⟩
  | cons m rest ih =>
    intro used
    unfold genItinAux
    try dsimp only
    obtain ⟨d1, d2, d3, d4⟩ := generate_random_day_ids acts prefs (os m) ⟨m⟩ db used hnd
    obtain ⟨r1, r2, r3, r4⟩ := ih (generate_random_day acts prefs (os m) ⟨m⟩ db used).2
    rw [List.flatMap_cons]
    refine ⟨?_, ?_, ?_, ?_⟩
    · rw [List.nodup_append]
      exact ⟨d1, r1, fun a ha1 ha2 => r2 a ha2 (d4 a ha1)⟩
    · intro s hs
      rcases List.mem_append.1 hs with hs | hs
      · exact d2 s hs
      · exact fun hin => r2 s hs (d3 hin)
    · exact d3.trans r3
    · intro s hs
      rcases List.mem_append.1 hs with hs | hs
      · exact r3 (d4 s hs)
      · exact r4 s hs

lemma generate_random_itinerary_nodup (acts : List TourismActivity)
    (prefs : UserPreferences) (os : ℤ → DayOracles) (used : Finset String)
    (hnd : (acts.map (fun a => a.id)).Nodup) :
    ((generate_random_itinerary acts prefs os used).1).allIds.Nodup := by
  unfold generate_random_itinerary
  exact (genItinAux_ids acts prefs os _ hnd _ used).1

/-- Claim C2: over one optimize run every itinerary carries pairwise
distinct activity ids across all days combined: random initialization
produces id-distinct individuals whenever the catalog ids are unique,
crossover children are id-distinct whenever their parents are (the
equal-day-count path rebuilds a fresh used set and is unconditionally
id-distinct; the mismatch path clones a parent), and the three mutation
operators (swap; replace, run with the used-activity set matching the
itinerary exactly as the code maintains it; shuffle) and clone preserve
id-distinctness - so the returned best itinerary, a clone of a population
member, has pairwise distinct activity ids. -/
theorem itinerary_ids_pairwise_distinct :
    (∀ (p1 p2 : Itinerary) (pick : ℕ → Bool) (fb : Bool),
      p1.allIds.Nodup → p2.allIds.Nodup → (crossover p1 p2 pick fb).allIds.Nodup) ∧
    (∀ (acts : List TourismActivity) (prefs : UserPreferences) (os : ℤ → DayOracles)
        (used : Finset String), (acts.map (fun a => a.id)).Nodup →
      ((generate_random_itinerary acts prefs os used).1).allIds.Nodup) ∧
    (∀ (it : Itinerary) (i j k1 k2 : ℕ), it.allIds.Nodup →
      (mutate_swap it i j k1 k2).allIds.Nodup) ∧
    (∀ (acts : List TourismActivity) (it : Itinerary) (di ii pk : ℕ), it.allIds.Nodup →
      ((mutate_replace acts it it.allIds.toFinset di ii pk).1).allIds.Nodup) ∧
    (∀ (it : Itinerary) (i : ℕ) (ni : List ItineraryItem), it.allIds.Nodup →
      ni.Perm (it.days.getD i defaultDay).items → (mutate_shuffle it i ni).allIds.Nodup) ∧
    (∀ it : Itinerary, it.clone.allIds = it.allIds) :=
  ⟨fun p1 p2 pick fb h1 h2 => crossover_nodup p1 p2 pick fb h1 h2,
   fun acts prefs os used hnd => generate_random_itinerary_nodup acts prefs os used hnd,
   fun it i j k1 k2 h => mutate_swap_nodup it i j k1 k2 h,
   fun acts it di ii pk h => mutate_replace_nodup acts it di ii pk h,
   fun it i ni h hp => mutate_shuffle_nodup it i ni h hp,
   fun _ => rfl⟩

/-- Witness for C2: crossover of two concrete one-item parents yields an
id-distinct child. -/
theorem itinerary_ids_pairwise_distinct_witness :
    (crossover itinBug itinBug (fun _ => true) true).allIds.Nodup :=
  itinerary_ids_pairwise_distinct.1 itinBug itinBug (fun _ => true) true
    (by simp [itinBug, Itinerary.allIds, DayPlan.itemIds])
    (by simp [itinBug, Itinerary.allIds, DayPlan.itemIds])

end Planner
